import Mathlib

/-!
Shallow embedding of `src/scripts/predict_rice_grain.py`, a command-line
rice-grain classifier.  The script's own logic (path validation, pixel
scaling, batch dimension, argmax/max extraction, report formatting, the
two error-reporting channels) is embedded faithfully; external
collaborators (the filesystem, the TFLite backend, the Keras image
loader) are abstracted as an environment of functions, with library
behaviour (numpy `argmax`/`max` first-occurrence and maximum semantics)
modelled from their documented contracts.  Real numbers are modelled by
`ℚ`.
-/

namespace RicePredict

/-- Element type tag of a numpy array (only the one the script produces
after `astype(np.float32)` matters here). -/
inductive DType where
  | float32
  | float64
deriving DecidableEq

/-- A decoded image: height × width × channels nested lists of pixel
values (the result of `image.img_to_array`). -/
abbrev Arr3 := List (List (List ℚ))

/-- The 4-D tensor produced by `load_single_image`: a list of 3-D planes
(the leading batch dimension added by `np.expand_dims(_, axis=0)`),
tagged with its element type. -/
structure Tensor4 where
  dtype : DType
  data : List Arr3
deriving DecidableEq

/-- A loaded TFLite interpreter, abstracted to its observable behaviour:
`invoke` covers `set_tensor`, `invoke` and `get_tensor` on the single
output slot, returning the 2-D output array or a backend error. -/
structure Interpreter where
  invoke : Tensor4 → Except String (List (List ℚ))

/-- The external world the script touches: `os.path.exists`, the model
loader (`tf.lite.Interpreter` + `allocate_tensors`), and the Keras
`image.load_img` + `img_to_array` decode/resize step (path and target
size to decoded pixel array, or a decode error). -/
structure Env where
  pathExists : String → Bool
  loadModel : String → Except String Interpreter
  load_img : String → ℕ × ℕ → Except String Arr3

/-- Observable outcome of one run of the script: process exit code and
the lines written to stdout and stderr. -/
structure RunResult where
  exitCode : ℕ
  stdout : List String
  stderr : List String
deriving DecidableEq

/-- `np.max` on a 1-D array: the maximum element (junk value 0 on the
empty array, where numpy raises instead; callers guard emptiness). -/
def np_max : List ℚ → ℚ
  | [] => 0
  | [x] => x
  | x :: y :: ys => max x (np_max (y :: ys))

/-- `np.argmax` on a 1-D array: the index of the first occurrence of the
maximum value (junk value 0 on the empty array, where numpy raises
instead; callers guard emptiness). -/
def np_argmax : List ℚ → ℕ
  | [] => 0
  | [_] => 0
  | x :: y :: ys => if x < np_max (y :: ys) then np_argmax (y :: ys) + 1 else 0

theorem np_max_cons (x : ℚ) (l : List ℚ) (h : l ≠ []) :
    np_max (x :: l) = max x (np_max l) := by
  cases l with
  | nil => exact absurd rfl h
  | cons y ys => rfl

theorem np_argmax_cons (x : ℚ) (l : List ℚ) (h : l ≠ []) :
    np_argmax (x :: l) = if x < np_max l then np_argmax l + 1 else 0 := by
  cases l with
  | nil => exact absurd rfl h
  | cons y ys => rfl

/-- Every element of a list is bounded by `np_max`. -/
theorem le_np_max {x : ℚ} : ∀ {l : List ℚ}, x ∈ l → x ≤ np_max l := by
  intro l
  induction l with
  | nil => intro h; cases h
  | cons a t ih =>
    intro hx
    cases t with
    | nil =>
      rcases List.mem_singleton.mp hx with rfl
      simp [np_max]
    | cons b u =>
      rw [np_max_cons a (b :: u) (by simp)]
      rcases List.mem_cons.mp hx with rfl | hx
      · exact le_max_left _ _
      · exact le_trans (ih hx) (le_max_right _ _)

/-- On a nonempty list, `np_max` is attained by some element. -/
theorem np_max_mem : ∀ {l : List ℚ}, l ≠ [] → np_max l ∈ l := by
  intro l
  induction l with
  | nil => intro h; exact absurd rfl h
  | cons a t ih =>
    intro _
    cases t with
    | nil => simp [np_max]
    | cons b u =>
      rw [np_max_cons a (b :: u) (by simp)]
      rcases max_choice a (np_max (b :: u)) with h | h
      · rw [h]; exact List.mem_cons_self _ _
      · rw [h]; exact List.mem_cons_of_mem _ (ih (by simp))

/-- `np_argmax` is a valid index of a nonempty list. -/
theorem np_argmax_lt_length : ∀ {l : List ℚ}, l ≠ [] → np_argmax l < l.length := by
  intro l
  induction l with
  | nil => intro h; exact absurd rfl h
  | cons a t ih =>
    intro _
    cases t with
    | nil => simp [np_argmax]
    | cons b u =>
      rw [np_argmax_cons a (b :: u) (by simp)]
      by_cases hab : a < np_max (b :: u)
      · rw [if_pos hab]
        have := ih (by simp)
        simpa [Nat.succ_lt_succ_iff] using this
      · rw [if_neg hab]
        simp

/-- The element at any index equal to `np_argmax` is the maximum. -/
theorem get_eq_np_max_of_eq_np_argmax :
    ∀ {l : List ℚ} (_ : l ≠ []) (i : ℕ) (hlt : i < l.length),
      i = np_argmax l → l.get ⟨i, hlt⟩ = np_max l := by
  intro l
  induction l with
  | nil => intro h; exact absurd rfl h
  | cons a t ih =>
    intro _ i hlt hieq
    cases t with
    | nil =>
      simp [np_argmax] at hieq
      subst hieq
      simp [np_max]
    | cons b u =>
      by_cases hab : a < np_max (b :: u)
      · have harg : np_argmax (a :: b :: u) = np_argmax (b :: u) + 1 := by
          rw [np_argmax_cons a (b :: u) (by simp), if_pos hab]
        have hmax : np_max (a :: b :: u) = np_max (b :: u) := by
          rw [np_max_cons a (b :: u) (by simp)]
          exact max_eq_right (le_of_lt hab)
        rw [harg] at hieq
        subst hieq
        have hlt' : np_argmax (b :: u) < (b :: u).length := by
          simpa [Nat.succ_lt_succ_iff] using hlt
        rw [List.get_cons_succ, hmax]
        exact ih (by simp) _ hlt' rfl
      · have harg : np_argmax (a :: b :: u) = 0 := by
          rw [np_argmax_cons a (b :: u) (by simp), if_neg hab]
        have hmax : np_max (a :: b :: u) = a := by
          rw [np_max_cons a (b :: u) (by simp)]
          exact max_eq_left (le_of_not_lt hab)
        rw [harg] at hieq
        subst hieq
        simp [hmax]

/-- The element at index `np_argmax` is the maximum. -/
theorem get_np_argmax {l : List ℚ} (h : l ≠ []) (hlt : np_argmax l < l.length) :
    l.get ⟨np_argmax l, hlt⟩ = np_max l :=
  get_eq_np_max_of_eq_np_argmax h _ hlt rfl

/-- `np_argmax` returns the first (smallest) index attaining the
maximum: any index holding the maximum is at least `np_argmax`. -/
theorem np_argmax_le_of_get_eq :
    ∀ {l : List ℚ} (j : ℕ) (hj : j < l.length),
      l.get ⟨j, hj⟩ = np_max l → np_argmax l ≤ j := by
  intro l
  induction l with
  | nil => intro j hj _; cases hj
  | cons a t ih =>
    intro j hj hget
    cases t with
    | nil => simp [np_argmax]
    | cons b u =>
      by_cases hab : a < np_max (b :: u)
      · have harg : np_argmax (a :: b :: u) = np_argmax (b :: u) + 1 := by
          rw [np_argmax_cons a (b :: u) (by simp), if_pos hab]
        have hmax : np_max (a :: b :: u) = np_max (b :: u) := by
          rw [np_max_cons a (b :: u) (by simp)]
          exact max_eq_right (le_of_lt hab)
        cases j with
        | zero =>
          exfalso
          rw [hmax] at hget
          simp at hget
          rw [hget] at hab
          exact lt_irrefl _ hab
        | succ j' =>
          have hj' : j' < (b :: u).length := by
            simpa [Nat.succ_lt_succ_iff] using hj
          have hget' : (b :: u).get ⟨j', hj'⟩ = np_max (b :: u) := by
            rw [hmax] at hget
            simpa using hget
          rw [harg]
          exact Nat.succ_le_succ (ih j' hj' hget')
      · have harg : np_argmax (a :: b :: u) = 0 := by
          rw [np_argmax_cons a (b :: u) (by simp), if_neg hab]
        rw [harg]
        exact Nat.zero_le _

/-- `img_array / 255.0` on one pixel's channel values. -/
def scale_pixel (px : List ℚ) : List ℚ := px.map (fun v => v / 255)

/-- `img_array / 255.0` on one image row. -/
def scale_row (row : List (List ℚ)) : List (List ℚ) := row.map scale_pixel

/-- `img_array / 255.0` on the whole decoded 3-D image array. -/
def scale_img (a : Arr3) : Arr3 := a.map scale_row

/-- Default `target_size=(128, 128)` of `load_single_image`. -/
def default_target_size : ℕ × ℕ := (128, 128)

/-- `load_single_image`: decode and resize the image via the Keras
loader (`img_of`, already applied to the image path), divide by 255.0,
add a leading batch dimension with `np.expand_dims(_, axis=0)` and
`astype(np.float32)`.  A decode error propagates. -/
def load_single_image (img_of : ℕ × ℕ → Except String Arr3)
    (target_size : ℕ × ℕ) : Except String Tensor4 :=
  match img_of target_size with
  | .error e => .error e
  | .ok img => .ok ⟨DType.float32, [scale_img img]⟩

/-- `tflite_fp32_predict`: bind the input tensor, run one forward pass,
read the output tensor, and return `(np.argmax(output[0]),
np.max(output[0]))`.  Backend errors propagate; an empty output raises
(numpy `IndexError`/`ValueError`), modelled as an error value. -/
def tflite_fp32_predict (interp : Interpreter) (img : Tensor4) :
    Except String (ℕ × ℚ) :=
  match interp.invoke img with
  | .error e => .error e
  | .ok [] => .error "index 0 is out of bounds for axis 0 with size 0"
  | .ok (out :: _) =>
    if out.isEmpty then .error "attempt to get argmax of an empty sequence"
    else .ok (np_argmax out, np_max out)

/-- The fixed ordered label table of the script. -/
def classes : List String := ["Karacadag", "Ipsala", "Arborio", "Basmati", "Jasmine"]

/-- `c * 60` separator lines of the report. -/
def sepLine (c : Char) : String := String.mk (List.replicate 60 c)

/-- Round half to even, the rounding used by Python float formatting. -/
def halfEven (q : ℚ) : ℤ :=
  if q - q.floor < 1 / 2 then q.floor
  else if 1 / 2 < q - q.floor then q.floor + 1
  else if q.floor % 2 = 0 then q.floor else q.floor + 1

/-- Two-digit zero-padded decimal fraction. -/
def pad2 (m : ℕ) : String := if m < 10 then "0" ++ toString m else toString m

/-- Python `f"{x:.2f}"`: the value rendered with two decimal places,
rounding half to even. -/
def pyFormat2 (x : ℚ) : String :=
  (if halfEven (x * 100) < 0 then "-" else "")
    ++ toString ((halfEven (x * 100)).natAbs / 100) ++ "."
    ++ pad2 ((halfEven (x * 100)).natAbs % 100)

/-- The stdout block printed on a successful classification. -/
def reportLines (imagePath className pct : String) : List String :=
  ["\n" ++ sepLine '=',
   "RICE GRAIN CLASSIFICATION RESULTS",
   sepLine '=',
   "Image: " ++ imagePath,
   sepLine '-',
   "Prediction: " ++ className ++ " (" ++ pct ++ "% confidence)",
   sepLine '=']

/-- The `__main__` driver after argument parsing: the two pre-flight
existence checks (stdout + exit 1), then the try block — load the
interpreter, preprocess the image, predict, and print the report; any
error inside the try block goes to stderr with exit 1.  The
`classes[pred]` lookup raises `IndexError` after five stdout lines when
`pred` is out of range, mirroring the f-string evaluation order. -/
def mainRun (env : Env) (modelPath imagePath : String) : RunResult :=
  if env.pathExists modelPath = false then
    ⟨1, ["Model not found: " ++ modelPath], []⟩
  else if env.pathExists imagePath = false then
    ⟨1, ["Image not found: " ++ imagePath], []⟩
  else
    match env.loadModel modelPath with
    | .error e => ⟨1, [], ["Error: " ++ e]⟩
    | .ok interp =>
      match load_single_image (env.load_img imagePath) default_target_size with
      | .error e => ⟨1, [], ["Error: " ++ e]⟩
      | .ok tensor =>
        match tflite_fp32_predict interp tensor with
        | .error e => ⟨1, [], ["Error: " ++ e]⟩
        | .ok pc =>
          if h : pc.1 < classes.length then
            ⟨0, reportLines imagePath (classes.get ⟨pc.1, h⟩)
                  (pyFormat2 (pc.2 * 100)), []⟩
          else
            ⟨1, ["\n" ++ sepLine '=',
                 "RICE GRAIN CLASSIFICATION RESULTS",
                 sepLine '=',
                 "Image: " ++ imagePath,
                 sepLine '-'],
             ["Error: list index out of range"]⟩

/-- All scalar values of a 3-D array satisfy `P`. -/
def allVals3 (P : ℚ → Prop) (a : Arr3) : Prop :=
  ∀ row ∈ a, ∀ px ∈ row, ∀ v ∈ px, P v

/-- All scalar values of a 4-D tensor satisfy `P`. -/
def allVals4 (P : ℚ → Prop) (t : Tensor4) : Prop :=
  ∀ plane ∈ t.data, allVals3 P plane

/-- A 3-D array has the given height × width × channel dimensions. -/
def hasShape3 (a : Arr3) (h w c : ℕ) : Prop :=
  a.length = h ∧ ∀ row ∈ a, row.length = w ∧ ∀ px ∈ row, px.length = c

theorem allVals3_scale_img {P Q : ℚ → Prop} (h : ∀ v, P v → Q (v / 255)) :
    ∀ {a : Arr3}, allVals3 P a → allVals3 Q (scale_img a) := by
  intro a hP row hrow px hpx v hv
  rcases List.mem_map.mp hrow with ⟨row₀, hrow₀, rfl⟩
  rcases List.mem_map.mp hpx with ⟨px₀, hpx₀, rfl⟩
  rcases List.mem_map.mp hv with ⟨v₀, hv₀, rfl⟩
  exact h v₀ (hP row₀ hrow₀ px₀ hpx₀ v₀ hv₀)

theorem hasShape3_scale_img {a : Arr3} {h w c : ℕ} :
    hasShape3 a h w c → hasShape3 (scale_img a) h w c := by
  rintro ⟨hlen, hrows⟩
  refine ⟨by simpa [scale_img] using hlen, ?_⟩
  intro row hrow
  rcases List.mem_map.mp hrow with ⟨row₀, hrow₀, rfl⟩
  rcases hrows row₀ hrow₀ with ⟨hwlen, hpxs⟩
  refine ⟨by simpa [scale_row] using hwlen, ?_⟩
  intro px hpx
  rcases List.mem_map.mp hpx with ⟨px₀, hpx₀, rfl⟩
  simpa [scale_pixel] using hpxs px₀ hpx₀

/-! Concrete artifacts used by the witness theorems. -/

/-- A concrete five-class output vector. -/
def demoOut : List ℚ := [0, 1, 0, 0, 0]

/-- A concrete output vector whose maximum is attained twice. -/
def demoTieOut : List ℚ := [0, 1, 1, 0, 0]

/-- A concrete interpreter returning `demoOut`. -/
def demoInterp : Interpreter := ⟨fun _ => .ok [demoOut]⟩

/-- A concrete interpreter returning `demoTieOut`. -/
def demoTieInterp : Interpreter := ⟨fun _ => .ok [demoTieOut]⟩

/-- A concrete solid-color 128×128×3 decoded image of value 51. -/
def demoImg : Arr3 := List.replicate 128 (List.replicate 128 (List.replicate 3 51))

/-- A concrete input tensor (contents irrelevant to the demo backends). -/
def demoTensor : Tensor4 := ⟨DType.float32, [scale_img demoImg]⟩

/-- A concrete always-successful decode function returning `demoImg`. -/
def demoDecode : ℕ × ℕ → Except String Arr3 := fun _ => .ok demoImg

/-- A concrete environment where every path exists and loading and
decoding succeed. -/
def demoEnv : Env :=
  ⟨fun _ => true, fun _ => .ok demoInterp, fun _ _ => .ok demoImg⟩

/-- A concrete environment whose filesystem is empty. -/
def emptyFsEnv : Env :=
  ⟨fun _ => false, fun _ => .ok demoInterp, fun _ _ => .ok demoImg⟩

/-- A concrete environment where only the model path exists. -/
def modelOnlyEnv : Env :=
  ⟨fun s => s == "m.tflite", fun _ => .ok demoInterp, fun _ _ => .ok demoImg⟩

/-- A concrete environment where model loading fails. -/
def badModelEnv : Env :=
  ⟨fun _ => true, fun _ => .error "bad model", fun _ _ => .ok demoImg⟩

theorem demoImg_solid : allVals3 (fun v => v = (51 : ℚ)) demoImg := by
  intro row hrow px hpx v hv
  rcases List.eq_of_mem_replicate hrow with rfl
  rcases List.eq_of_mem_replicate hpx with rfl
  exact List.eq_of_mem_replicate hv

theorem demoImg_shape : hasShape3 demoImg 128 128 3 := by
  refine ⟨by simp [demoImg], ?_⟩
  intro row hrow
  rcases List.eq_of_mem_replicate hrow with rfl
  refine ⟨by simp, ?_⟩
  intro px hpx
  rcases List.eq_of_mem_replicate hpx with rfl
  simp

/-! The claims. -/

/-- C1: for every loaded model handle and preprocessed input tensor,
the inference runner returns the pair (arg-max index, maximum value) of
the output score vector, and for a 5-class output the predicted index
is in range [0,4]. -/
theorem C1_predict_argmax_in_range (interp : Interpreter) (img : Tensor4)
    (out : List ℚ) (rest : List (List ℚ))
    (hinv : interp.invoke img = .ok (out :: rest))
    (hlen : out.length = 5) :
    tflite_fp32_predict interp img = .ok (np_argmax out, np_max out) ∧
    np_argmax out < 5 ∧
    ∃ hlt : np_argmax out < out.length,
      out.get ⟨np_argmax out, hlt⟩ = np_max out ∧ ∀ x ∈ out, x ≤ np_max out := by
  have hne : out ≠ [] := by
    intro h
    rw [h] at hlen
    simp at hlen
  have hlt : np_argmax out < out.length := np_argmax_lt_length hne
  refine ⟨?_, by rw [← hlen]; exact hlt, hlt, get_np_argmax hne hlt,
    fun x hx => le_np_max hx⟩
  cases out with
  | nil => exact absurd rfl hne
  | cons o os => simp [tflite_fp32_predict, hinv]

/-- C1 witness: the theorem applied to a concrete interpreter whose
output vector is `[0, 1, 0, 0, 0]`. -/
theorem C1_predict_argmax_in_range_witness :
    (demoInterp.invoke demoTensor = .ok [demoOut] ∧ demoOut.length = 5) ∧
    (tflite_fp32_predict demoInterp demoTensor
        = .ok (np_argmax demoOut, np_max demoOut) ∧
      np_argmax demoOut < 5 ∧
      ∃ hlt : np_argmax demoOut < demoOut.length,
        demoOut.get ⟨np_argmax demoOut, hlt⟩ = np_max demoOut ∧
          ∀ x ∈ demoOut, x ≤ np_max demoOut) :=
  ⟨⟨rfl, rfl⟩, C1_predict_argmax_in_range demoInterp demoTensor demoOut [] rfl rfl⟩

/-- C9: the inference runner breaks ties toward the smallest index: the
returned index attains the returned maximum value, and any index of the
output vector attaining that value is at least the returned index. -/
theorem C9_argmax_first_occurrence (interp : Interpreter) (img : Tensor4)
    (out : List ℚ) (rest : List (List ℚ)) (i : ℕ) (v : ℚ)
    (hinv : interp.invoke img = .ok (out :: rest))
    (hne : out ≠ [])
    (hpred : tflite_fp32_predict interp img = .ok (i, v)) :
    (∃ hlt : i < out.length, out.get ⟨i, hlt⟩ = v) ∧
    ∀ j (hj : j < out.length), out.get ⟨j, hj⟩ = v → i ≤ j := by
  have hiv : i = np_argmax out ∧ v = np_max out := by
    cases out with
    | nil => exact absurd rfl hne
    | cons o os =>
      rw [tflite_fp32_predict, hinv] at hpred
      simp at hpred
      exact ⟨hpred.1.symm, hpred.2.symm⟩
  rcases hiv with ⟨rfl, rfl⟩
  have hlt : np_argmax out < out.length := np_argmax_lt_length hne
  exact ⟨⟨hlt, get_np_argmax hne hlt⟩,
    fun j hj hget => np_argmax_le_of_get_eq j hj hget⟩

/-- C9 witness: the theorem applied to a concrete output vector
`[0, 1, 1, 0, 0]` whose maximum is attained at indices 1 and 2. -/
theorem C9_argmax_first_occurrence_witness :
    (demoTieInterp.invoke demoTensor = .ok [demoTieOut] ∧ demoTieOut ≠ [] ∧
      tflite_fp32_predict demoTieInterp demoTensor
        = .ok (np_argmax demoTieOut, np_max demoTieOut)) ∧
    ((∃ hlt : np_argmax demoTieOut < demoTieOut.length,
        demoTieOut.get ⟨np_argmax demoTieOut, hlt⟩ = np_max demoTieOut) ∧
      ∀ j (hj : j < demoTieOut.length),
        demoTieOut.get ⟨j, hj⟩ = np_max demoTieOut → np_argmax demoTieOut ≤ j) :=
  ⟨⟨rfl, by simp [demoTieOut], rfl⟩,
    C9_argmax_first_occurrence demoTieInterp demoTensor demoTieOut []
      (np_argmax demoTieOut) (np_max demoTieOut) rfl (by simp [demoTieOut]) rfl⟩

/-- C8: the program is deterministic: two runs on the same model path,
image path and environment produce the same result. -/
theorem C8_deterministic (env : Env) (p i : String) (r₁ r₂ : RunResult)
    (h₁ : mainRun env p i = r₁) (h₂ : mainRun env p i = r₂) : r₁ = r₂ := by
  rw [← h₁, ← h₂]

/-- C8 witness: two runs on a concrete environment agree. -/
theorem C8_deterministic_witness :
    mainRun demoEnv "m.tflite" "img.jpg" = mainRun demoEnv "m.tflite" "img.jpg" :=
  C8_deterministic demoEnv "m.tflite" "img.jpg" _ _ rfl rfl

/-- C5: when the model path does not exist, the program exits 1 and
prints exactly "Model not found: <path>" on stdout, with empty stderr,
whatever the rest of the environment does. -/
theorem C5_model_not_found (env : Env) (p i : String)
    (h : env.pathExists p = false) :
    mainRun env p i = ⟨1, ["Model not found: " ++ p], []⟩ := by
  simp [mainRun, h]

/-- C5 witness: the theorem applied to an environment with an empty
filesystem. -/
theorem C5_model_not_found_witness :
    emptyFsEnv.pathExists "m.tflite" = false ∧
    mainRun emptyFsEnv "m.tflite" "img.jpg"
      = ⟨1, ["Model not found: " ++ "m.tflite"], []⟩ :=
  ⟨rfl, C5_model_not_found emptyFsEnv "m.tflite" "img.jpg" rfl⟩

/-- C6: when the model path exists but the image path does not, the
program exits 1 and prints exactly "Image not found: <path>" on stdout,
with empty stderr, whatever the rest of the environment does. -/
theorem C6_image_not_found (env : Env) (p i : String)
    (hp : env.pathExists p = true) (hi : env.pathExists i = false) :
    mainRun env p i = ⟨1, ["Image not found: " ++ i], []⟩ := by
  simp [mainRun, hp, hi]

/-- C6 witness: the theorem applied to an environment where only the
model path exists. -/
theorem C6_image_not_found_witness :
    modelOnlyEnv.pathExists "m.tflite" = true ∧
    modelOnlyEnv.pathExists "img.jpg" = false ∧
    mainRun modelOnlyEnv "m.tflite" "img.jpg"
      = ⟨1, ["Image not found: " ++ "img.jpg"], []⟩ :=
  ⟨rfl, rfl, C6_image_not_found modelOnlyEnv "m.tflite" "img.jpg" rfl rfl⟩

/-- C10: the model-path check runs first: when both paths are missing,
the run reports only "Model not found" and its outcome is independent
of everything else in the environment (the image path is never
examined). -/
theorem C10_model_check_first (env : Env) (p i : String)
    (hm : env.pathExists p = false) (_ : env.pathExists i = false) :
    mainRun env p i = ⟨1, ["Model not found: " ++ p], []⟩ ∧
    ∀ env' : Env, env'.pathExists p = false →
      mainRun env' p i = mainRun env p i := by
  constructor
  · simp [mainRun, hm]
  · intro env' hm'
    simp [mainRun, hm, hm']

/-- C10 witness: the theorem applied to the empty-filesystem
environment, compared against the all-good environment restricted to a
missing model path. -/
theorem C10_model_check_first_witness :
    (emptyFsEnv.pathExists "m.tflite" = false ∧
      emptyFsEnv.pathExists "img.jpg" = false) ∧
    (mainRun emptyFsEnv "m.tflite" "img.jpg"
        = ⟨1, ["Model not found: " ++ "m.tflite"], []⟩ ∧
      ∀ env' : Env, env'.pathExists "m.tflite" = false →
        mainRun env' "m.tflite" "img.jpg"
          = mainRun emptyFsEnv "m.tflite" "img.jpg") :=
  ⟨⟨rfl, rfl⟩, C10_model_check_first emptyFsEnv "m.tflite" "img.jpg" rfl rfl⟩

/-- C2: preprocessing scales every pixel by 1/255: a solid-color image
of value V yields the constant V/255 at every non-batch position, and
pixel values in [0,255] yield tensor values in [0,1]. -/
theorem C2_preprocess_scales_pixels (f : ℕ × ℕ → Except String Arr3)
    (a : Arr3) (t : Tensor4)
    (hdec : f default_target_size = .ok a)
    (hload : load_single_image f default_target_size = .ok t) :
    (∀ V : ℚ, allVals3 (fun v => v = V) a →
      allVals4 (fun x => x = V / 255) t) ∧
    (allVals3 (fun v => 0 ≤ v ∧ v ≤ 255) a →
      allVals4 (fun x => 0 ≤ x ∧ x ≤ 1) t) := by
  rw [load_single_image, hdec] at hload
  simp only [Except.ok.injEq] at hload
  subst hload
  constructor
  · intro V hsolid plane hplane
    rcases List.mem_singleton.mp hplane with rfl
    exact allVals3_scale_img (fun v hv => by rw [hv]) hsolid
  · intro hrange plane hplane
    rcases List.mem_singleton.mp hplane with rfl
    refine allVals3_scale_img (fun v hv => ⟨?_, ?_⟩) hrange
    · exact div_nonneg hv.1 (by norm_num)
    · exact (div_le_one (by norm_num)).mpr hv.2

/-- C2 witness: the theorem applied to a solid image of value 51, every
tensor value of which is 51/255. -/
theorem C2_preprocess_scales_pixels_witness :
    (demoDecode default_target_size = .ok demoImg ∧
      load_single_image demoDecode default_target_size
        = .ok ⟨DType.float32, [scale_img demoImg]⟩ ∧
      allVals3 (fun v => v = (51 : ℚ)) demoImg) ∧
    allVals4 (fun x => x = (51 : ℚ) / 255) ⟨DType.float32, [scale_img demoImg]⟩ :=
  ⟨⟨rfl, rfl, demoImg_solid⟩,
    (C2_preprocess_scales_pixels demoDecode demoImg
        ⟨DType.float32, [scale_img demoImg]⟩ rfl rfl).1 51 demoImg_solid⟩

/-- C3: for a decodable image (decoded at the default 128×128 target
size with 3 channels), the preprocessed tensor is 4-D with a leading
batch dimension of size 1, each plane of shape 128×128×3, and element
type float32. -/
theorem C3_preprocess_shape (f : ℕ × ℕ → Except String Arr3)
    (a : Arr3) (t : Tensor4)
    (hdec : f default_target_size = .ok a)
    (hshape : hasShape3 a 128 128 3)
    (hload : load_single_image f default_target_size = .ok t) :
    default_target_size = (128, 128) ∧
    t.dtype = DType.float32 ∧
    t.data.length = 1 ∧
    ∀ plane ∈ t.data, hasShape3 plane 128 128 3 := by
  rw [load_single_image, hdec] at hload
  simp only [Except.ok.injEq] at hload
  subst hload
  refine ⟨rfl, rfl, rfl, ?_⟩
  intro plane hplane
  rcases List.mem_singleton.mp hplane with rfl
  exact hasShape3_scale_img hshape

/-- C3 witness: the theorem applied to a concrete 128×128×3 decoded
image. -/
theorem C3_preprocess_shape_witness :
    (demoDecode default_target_size = .ok demoImg ∧
      hasShape3 demoImg 128 128 3 ∧
      load_single_image demoDecode default_target_size
        = .ok ⟨DType.float32, [scale_img demoImg]⟩) ∧
    (default_target_size = (128, 128) ∧
      Tensor4.dtype ⟨DType.float32, [scale_img demoImg]⟩ = DType.float32 ∧
      (Tensor4.data ⟨DType.float32, [scale_img demoImg]⟩).length = 1 ∧
      ∀ plane ∈ Tensor4.data ⟨DType.float32, [scale_img demoImg]⟩,
        hasShape3 plane 128 128 3) :=
  ⟨⟨rfl, demoImg_shape, rfl⟩,
    C3_preprocess_shape demoDecode demoImg
      ⟨DType.float32, [scale_img demoImg]⟩ rfl demoImg_shape rfl⟩

/-- C7: every error raised inside the try block — model loading,
image decoding/preprocessing, or inference — is caught at the top
level, reported as "Error: <message>" on stderr with empty stdout, and
the process exits 1. -/
theorem C7_try_errors_to_stderr (env : Env) (p i : String)
    (hp : env.pathExists p = true) (hi : env.pathExists i = true) :
    (∀ e, env.loadModel p = .error e →
      mainRun env p i = ⟨1, [], ["Error: " ++ e]⟩) ∧
    (∀ interp e, env.loadModel p = .ok interp →
      load_single_image (env.load_img i) default_target_size = .error e →
      mainRun env p i = ⟨1, [], ["Error: " ++ e]⟩) ∧
    (∀ interp t e, env.loadModel p = .ok interp →
      load_single_image (env.load_img i) default_target_size = .ok t →
      tflite_fp32_predict interp t = .error e →
      mainRun env p i = ⟨1, [], ["Error: " ++ e]⟩) := by
  refine ⟨?_, ?_, ?_⟩
  · intro e he
    simp [mainRun, hp, hi, he]
  · intro interp e hok he
    simp [mainRun, hp, hi, hok, he]
  · intro interp t e hok ht he
    simp [mainRun, hp, hi, hok, ht, he]

/-- C7 witness: the theorem applied to an environment whose model
loader fails with "bad model". -/
theorem C7_try_errors_to_stderr_witness :
    (badModelEnv.pathExists "m.tflite" = true ∧
      badModelEnv.pathExists "img.jpg" = true ∧
      badModelEnv.loadModel "m.tflite" = .error "bad model") ∧
    mainRun badModelEnv "m.tflite" "img.jpg"
      = ⟨1, [], ["Error: " ++ "bad model"]⟩ :=
  ⟨⟨rfl, rfl, rfl⟩,
    (C7_try_errors_to_stderr badModelEnv "m.tflite" "img.jpg" rfl rfl).1
      "bad model" rfl⟩

/-- C4: on a successful run with a 5-class output whose scores lie in
[0,1], the program exits 0, stderr is empty, and stdout contains the
image path and a prediction line with the class name at the predicted
index of the fixed label table and the confidence rendered as a
two-decimal percentage lying between 0 and 100. -/
theorem C4_success_report (env : Env) (p i : String)
    (interp : Interpreter) (t : Tensor4) (out : List ℚ) (rest : List (List ℚ))
    (hp : env.pathExists p = true) (hi : env.pathExists i = true)
    (hload : env.loadModel p = .ok interp)
    (himg : load_single_image (env.load_img i) default_target_size = .ok t)
    (hinv : interp.invoke t = .ok (out :: rest))
    (hlen : out.length = 5)
    (hbound : ∀ x ∈ out, 0 ≤ x ∧ x ≤ 1) :
    ∃ hlt : np_argmax out < classes.length,
      (mainRun env p i).exitCode = 0 ∧
      (mainRun env p i).stderr = [] ∧
      ("Image: " ++ i) ∈ (mainRun env p i).stdout ∧
      ("Prediction: " ++ classes.get ⟨np_argmax out, hlt⟩ ++ " ("
          ++ pyFormat2 (np_max out * 100) ++ "% confidence)")
        ∈ (mainRun env p i).stdout ∧
      0 ≤ np_max out * 100 ∧ np_max out * 100 ≤ 100 := by
  have hne : out ≠ [] := by
    intro h
    rw [h] at hlen
    simp at hlen
  have hpredict : tflite_fp32_predict interp t = .ok (np_argmax out, np_max out) := by
    cases out with
    | nil => exact absurd rfl hne
    | cons o os => simp [tflite_fp32_predict, hinv]
  have hlt : np_argmax out < classes.length := by
    have := np_argmax_lt_length hne
    rw [hlen] at this
    simpa [classes] using this
  have hrun : mainRun env p i
      = ⟨0, reportLines i (classes.get ⟨np_argmax out, hlt⟩)
          (pyFormat2 (np_max out * 100)), []⟩ := by
    simp [mainRun, hp, hi, hload, himg, hpredict, hlt]
  have hmem : np_max out ∈ out := np_max_mem hne
  have h0 : 0 ≤ np_max out := (hbound _ hmem).1
  have h1 : np_max out ≤ 1 := (hbound _ hmem).2
  refine ⟨hlt, by rw [hrun], by rw [hrun], ?_, ?_, ?_, ?_⟩
  · rw [hrun]
    simp [reportLines]
  · rw [hrun]
    simp [reportLines]
  · positivity
  · nlinarith

/-- C4 witness: the theorem applied to the all-good concrete
environment, whose output vector is `[0, 1, 0, 0, 0]`. -/
theorem C4_success_report_witness :
    (demoEnv.pathExists "m.tflite" = true ∧
      demoEnv.pathExists "img.jpg" = true ∧
      demoEnv.loadModel "m.tflite" = .ok demoInterp ∧
      load_single_image (demoEnv.load_img "img.jpg") default_target_size
        = .ok demoTensor ∧
      demoInterp.invoke demoTensor = .ok [demoOut] ∧
      demoOut.length = 5 ∧
      ∀ x ∈ demoOut, 0 ≤ x ∧ x ≤ 1) ∧
    (∃ hlt : np_argmax demoOut < classes.length,
      (mainRun demoEnv "m.tflite" "img.jpg").exitCode = 0 ∧
      (mainRun demoEnv "m.tflite" "img.jpg").stderr = [] ∧
      ("Image: " ++ "img.jpg") ∈ (mainRun demoEnv "m.tflite" "img.jpg").stdout ∧
      ("Prediction: " ++ classes.get ⟨np_argmax demoOut, hlt⟩ ++ " ("
          ++ pyFormat2 (np_max demoOut * 100) ++ "% confidence)")
        ∈ (mainRun demoEnv "m.tflite" "img.jpg").stdout ∧
      0 ≤ np_max demoOut * 100 ∧ np_max demoOut * 100 ≤ 100) :=
  ⟨⟨rfl, rfl, rfl, rfl, rfl, rfl, by decide⟩,
    C4_success_report demoEnv "m.tflite" "img.jpg" demoInterp demoTensor
      demoOut [] rfl rfl rfl rfl rfl rfl (by decide)⟩

end RicePredict
